import Mathlib

/-!
Shallow embedding of the budget/limit tracking core of the nocontrole
personal-finance backend (Node.js / Express / Mongoose), together with
theorems settling the frozen claims about its specification.

Modelling conventions, used uniformly below:
* JavaScript numbers are modelled as exact rationals (ℚ).  The Mongoose
  currency getters/setters round to 2 decimals via Math.round(v*100)/100;
  every write path passes the setter, so stored monetary fields are
  2-decimal stable and reads are modelled as the identity.
* Mongo ObjectIds are opaque strings; casting a 24-character string to an
  ObjectId is modelled as the identity.
* Dates are modelled at day granularity as (year, 0-based month, day)
  triples with JavaScript Date normalization semantics (overflowing days
  roll into the following month); times of day finer than one day are not
  modelled.
* Mongo collections are lists in insertion order; findOne / findById
  return the first match, findOneAndUpdate / findOneAndDelete act on the
  first match.
-/

namespace NoControle

/-- JavaScript Math.round: rounds half toward positive infinity. -/
def jsRound (x : ℚ) : ℤ := ⌊x + 1/2⌋

/-- Mongoose currency getter/setter: Math.round(v * 100) / 100. -/
def round2 (x : ℚ) : ℚ := (jsRound (100 * x) : ℚ) / 100

/-- A rational is a 2-decimal currency value (an integer number of cents). -/
def IsRound2 (x : ℚ) : Prop := ∃ n : ℤ, x = (n : ℚ) / 100

theorem jsRound_intCast (n : ℤ) : jsRound (n : ℚ) = n := by
  unfold jsRound
  rw [Int.floor_int_add]
  norm_num

theorem round2_of_isRound2 {x : ℚ} (h : IsRound2 x) : round2 x = x := by
  obtain ⟨n, rfl⟩ := h
  unfold round2
  have h100 : (100 : ℚ) * ((n : ℚ) / 100) = (n : ℚ) := by ring
  rw [h100, jsRound_intCast]

theorem isRound2_add {x y : ℚ} (hx : IsRound2 x) (hy : IsRound2 y) :
    IsRound2 (x + y) := by
  obtain ⟨a, rfl⟩ := hx
  obtain ⟨b, rfl⟩ := hy
  exact ⟨a + b, by push_cast; ring⟩

theorem isRound2_abs {x : ℚ} (hx : IsRound2 x) : IsRound2 |x| := by
  obtain ⟨a, rfl⟩ := hx
  refine ⟨|a|, ?_⟩
  rw [abs_div]
  push_cast
  norm_num

theorem isRound2_zero : IsRound2 0 := ⟨0, by norm_num⟩

theorem round2_zero : round2 0 = 0 := round2_of_isRound2 isRound2_zero

/-!
## Calendar model (JavaScript Date semantics, day granularity)

A JS Date is modelled as a (year, month, day) triple with the month
0-based (as in Date.prototype.getMonth) and the day 1-based.  JS Date
setters normalize out-of-range day values by rolling the excess days into
the following months; that normalization is the function normDate.
-/

structure JSDate where
  year : ℕ
  month : ℕ
  day : ℕ
  deriving DecidableEq, Repr

/-- Gregorian leap-year rule, as implemented by the JS Date object. -/
def isLeap (y : ℕ) : Bool := (y % 4 = 0 && !(y % 100 = 0)) || y % 400 = 0

/-- Number of days of 0-based month m in year y (months ≥ 12 never reach
this function after normalization; they default to 31). -/
def daysInMonth (y m : ℕ) : ℕ :=
  match m with
  | 1 => if isLeap y then 29 else 28
  | 3 => 30
  | 5 => 30
  | 8 => 30
  | 10 => 30
  | _ => 31

theorem daysInMonth_pos (y m : ℕ) : 0 < daysInMonth y m := by
  unfold daysInMonth
  split <;> (try split) <;> norm_num

theorem le_daysInMonth (y m : ℕ) : 28 ≤ daysInMonth y m := by
  unfold daysInMonth
  split <;> (try split) <;> norm_num

theorem daysInMonth_le (y m : ℕ) : daysInMonth y m ≤ 31 := by
  unfold daysInMonth
  split <;> (try split) <;> norm_num

/-- Fuel-driven worker for JS Date normalization; every step strictly
decreases the day count, so fuel = d always suffices. -/
def normDateAux : ℕ → ℕ → ℕ → ℕ → JSDate
  | 0, y, m, d => ⟨y, m, d⟩
  | fuel + 1, y, m, d =>
      if d ≤ daysInMonth y m then ⟨y, m, d⟩
      else if m = 11 then normDateAux fuel (y + 1) 0 (d - 31)
      else normDateAux fuel y (m + 1) (d - daysInMonth y m)

/-- JS Date normalization: a (year, 0-based month < 12, day ≥ 1) triple
whose day may exceed the month length is reduced by rolling whole months
off the front, exactly as the JS Date constructor/setters do. -/
def normDate (y m d : ℕ) : JSDate := normDateAux d y m d

/-- Specification-side calendar successor of a day. -/
def nextDay (d : JSDate) : JSDate :=
  if d.day + 1 ≤ daysInMonth d.year d.month then ⟨d.year, d.month, d.day + 1⟩
  else if d.month = 11 then ⟨d.year + 1, 0, 1⟩
  else ⟨d.year, d.month + 1, 1⟩

/-- Specification-side: advance a date by n calendar days. -/
def addDays (n : ℕ) (d : JSDate) : JSDate := nextDay^[n] d

/-- JS date.setDate(date.getDate() + n). -/
def setDatePlus (n : ℕ) (d : JSDate) : JSDate := normDate d.year d.month (d.day + n)

/-- JS date.setMonth(date.getMonth() + 1): keeps the day-of-month and
normalizes overflow into the following month (no clamping). -/
def setMonthPlus1 (d : JSDate) : JSDate :=
  if d.month = 11 then normDate (d.year + 1) 0 d.day
  else normDate d.year (d.month + 1) d.day

/-- JS date.setFullYear(date.getFullYear() + 1). -/
def setFullYearPlus1 (d : JSDate) : JSDate := normDate (d.year + 1) d.month d.day

/-- A date that the JS Date object can actually hold after normalization. -/
def ValidDate (d : JSDate) : Prop :=
  d.month < 12 ∧ 1 ≤ d.day ∧ d.day ≤ daysInMonth d.year d.month

instance (d : JSDate) : Decidable (ValidDate d) := by
  unfold ValidDate
  infer_instance

/-- Lexicographic comparison of dates: the order of the underlying JS
timestamps at day granularity (models $lte on the data field). -/
def dateLe (a b : JSDate) : Bool :=
  a.year < b.year ||
    (a.year = b.year &&
      (a.month < b.month || (a.month = b.month && a.day ≤ b.day)))

/-- Strict lexicographic comparison of dates. -/
def dateLt (a b : JSDate) : Bool :=
  a.year < b.year ||
    (a.year = b.year &&
      (a.month < b.month || (a.month = b.month && a.day < b.day)))

theorem normDateAux_of_le {fuel y m d : ℕ} (h : d ≤ daysInMonth y m) :
    normDateAux fuel y m d = ⟨y, m, d⟩ := by
  cases fuel with
  | zero => rfl
  | succ fuel => simp [normDateAux, h]

theorem normDateAux_step {fuel y m d : ℕ} (h : daysInMonth y m < d) :
    normDateAux (fuel + 1) y m d =
      if m = 11 then normDateAux fuel (y + 1) 0 (d - 31)
      else normDateAux fuel y (m + 1) (d - daysInMonth y m) := by
  have hle : ¬ d ≤ daysInMonth y m := by omega
  simp only [normDateAux, hle, if_false]

theorem normDate_of_le {y m d : ℕ} (h : d ≤ daysInMonth y m) :
    normDate y m d = ⟨y, m, d⟩ := normDateAux_of_le h

/-- The worker ignores the exact amount of fuel as long as it covers the
day count. -/
theorem normDateAux_fuel {d : ℕ} :
    ∀ {f g y m : ℕ}, d ≤ f → d ≤ g →
      normDateAux f y m d = normDateAux g y m d := by
  induction d using Nat.strong_induction_on with
  | _ d ih =>
    intro f g y m hf hg
    by_cases hle : d ≤ daysInMonth y m
    · rw [normDateAux_of_le hle, normDateAux_of_le hle]
    · have hdm := le_daysInMonth y m
      have hd29 : 29 ≤ d := by omega
      obtain ⟨f1, rfl⟩ : ∃ f1, f = f1 + 1 := ⟨f - 1, by omega⟩
      obtain ⟨g1, rfl⟩ : ∃ g1, g = g1 + 1 := ⟨g - 1, by omega⟩
      rw [normDateAux_step (by omega), normDateAux_step (by omega)]
      by_cases hm : m = 11
      · subst hm
        have h31 : daysInMonth y 11 = 31 := rfl
        simp only [if_pos rfl]
        exact ih (d - 31) (by omega) (by omega) (by omega)
      · simp only [hm, if_false]
        exact ih (d - daysInMonth y m) (by omega) (by omega) (by omega)

/-- One unfolding of the normalization at the normDate level. -/
theorem normDate_over {y m d : ℕ} (h : daysInMonth y m < d) :
    normDate y m d =
      if m = 11 then normDate (y + 1) 0 (d - 31)
      else normDate y (m + 1) (d - daysInMonth y m) := by
  have hdm := le_daysInMonth y m
  have hd29 : 29 ≤ d := by omega
  unfold normDate
  obtain ⟨d1, hd1⟩ : ∃ d1, d = d1 + 1 := ⟨d - 1, by omega⟩
  rw [hd1, normDateAux_step (by omega)]
  by_cases hm : m = 11
  · subst hm
    have h31 : daysInMonth y 11 = 31 := rfl
    simp only [if_pos rfl]
    exact normDateAux_fuel (by omega) (by omega)
  · simp only [hm, if_false]
    exact normDateAux_fuel (by omega) (by omega)

/-- One JS rollover step: a day overflowing the current month by at most
one following month lands in that following month. -/
theorem normDate_rollover {y m d : ℕ} (hm : m < 11)
    (h1 : daysInMonth y m < d)
    (h2 : d - daysInMonth y m ≤ daysInMonth y (m + 1)) :
    normDate y m d = ⟨y, m + 1, d - daysInMonth y m⟩ := by
  rw [normDate_over h1]
  have hm11 : ¬ m = 11 := by omega
  simp [hm11, normDate_of_le h2]

theorem normDate_rollover_dec {y d : ℕ}
    (h1 : daysInMonth y 11 < d) (h2 : d - 31 ≤ 31) :
    normDate y 11 d = ⟨y + 1, 0, d - 31⟩ := by
  rw [normDate_over h1]
  have h2x : d - 31 ≤ daysInMonth (y + 1) 0 := by
    have h31 : daysInMonth (y + 1) 0 = 31 := rfl
    rw [h31]
    exact h2
  simp [normDate_of_le h2x]

/-- The JS day-overflow normalization of a day successor is the calendar
successor of the normalization: the bridge between setDate arithmetic and
calendar-day counting. -/
theorem normDate_succ {d : ℕ} :
    ∀ {y m : ℕ}, 1 ≤ d → m < 12 →
      normDate y m (d + 1) = nextDay (normDate y m d) := by
  induction d using Nat.strong_induction_on with
  | _ d ih =>
    intro y m hd hm
    by_cases h1 : d + 1 ≤ daysInMonth y m
    · rw [normDate_of_le h1, normDate_of_le (by omega : d ≤ daysInMonth y m)]
      unfold nextDay
      simp [h1]
    · by_cases h2 : d ≤ daysInMonth y m
      · have hdm : d = daysInMonth y m := by omega
        rw [normDate_of_le h2, normDate_over (by omega : daysInMonth y m < d + 1)]
        unfold nextDay
        simp only [h1, if_false]
        by_cases hm11 : m = 11
        · subst hm11
          have h31 : daysInMonth y 11 = 31 := rfl
          have e1 : d + 1 - 31 = 1 := by omega
          have hnd : normDate (y + 1) 0 1 = ⟨y + 1, 0, 1⟩ :=
            normDate_of_le (by have := daysInMonth_pos (y + 1) 0; omega)
          simp [e1, hnd]
        · have e1 : d + 1 - daysInMonth y m = 1 := by omega
          have hnd : normDate y (m + 1) 1 = ⟨y, m + 1, 1⟩ :=
            normDate_of_le (by have := daysInMonth_pos y (m + 1); omega)
          simp [hm11, e1, hnd]
      · have h3 : daysInMonth y m < d := by omega
        have hdm := le_daysInMonth y m
        rw [normDate_over (by omega : daysInMonth y m < d + 1), normDate_over h3]
        by_cases hm11 : m = 11
        · subst hm11
          have h31 : daysInMonth y 11 = 31 := rfl
          have e1 : d + 1 - 31 = (d - 31) + 1 := by omega
          simp only [if_pos rfl, e1]
          exact ih (d - 31) (by omega) (by omega) (by omega)
        · have e1 : d + 1 - daysInMonth y m = (d - daysInMonth y m) + 1 := by omega
          simp only [hm11, if_false, e1]
          exact ih (d - daysInMonth y m) (by omega) (by omega) (by omega)

/-- JS setDate(getDate() + n) advances a valid date by exactly n calendar
days. -/
theorem setDatePlus_eq_addDays (d : JSDate) (hv : ValidDate d) (n : ℕ) :
    setDatePlus n d = addDays n d := by
  obtain ⟨hm, hd1, hd2⟩ := hv
  induction n with
  | zero => simp [setDatePlus, addDays, normDate_of_le hd2]
  | succ n ihn =>
      have e1 : d.day + (n + 1) = (d.day + n) + 1 := by omega
      unfold setDatePlus
      rw [e1, normDate_succ (by omega) hm]
      unfold setDatePlus at ihn
      rw [ihn]
      unfold addDays
      rw [Function.iterate_succ_apply']

/-!
## Data model (src/src/models/Limit.js, Transaction.js, Category.js)

Fields not consulted by any operation embedded here (display colour,
descriptions, alert-threshold flags, tags, attachments, timestamps) are
omitted.  Both alias spellings of the category/card references are kept,
as the source stores and synchronizes both.
-/

inductive LTipo where
  | categoria | cartao | geral | periodo
  deriving DecidableEq, Repr

inductive Periodo where
  | diario | semanal | mensal | anual
  deriving DecidableEq, Repr

inductive TTipo where
  | receita | despesa
  deriving DecidableEq, Repr

inductive TStatus where
  | pendente | confirmada | cancelada
  deriving DecidableEq, Repr

structure Category where
  oid : String
  user : String
  nome : String
  tipo : TTipo
  icone : String
  deriving DecidableEq, Repr

structure Limit where
  oid : String
  user : String
  nome : Option String
  tipo : LTipo
  valorLimite : ℚ
  valorGasto : ℚ
  periodo : Periodo
  categoria : Option String
  categoriaId : Option String
  cartao : Option String
  cartaoId : Option String
  ativo : Bool
  ultimoReset : JSDate
  proximoReset : Option JSDate
  deriving DecidableEq, Repr

structure Transaction where
  oid : String
  user : String
  tipo : TTipo
  valor : ℚ
  data : JSDate
  categoria : Option String
  categoriaId : Option String
  cartao : Option String
  cartaoId : Option String
  status : TStatus
  deriving DecidableEq, Repr

/-- The persistent store: one list per collection, in insertion order. -/
structure Store where
  categories : List Category
  limits : List Limit
  transactions : List Transaction
  deriving DecidableEq, Repr

/-!
## Limit engine: derived state (virtuals of Limit.js)
-/

/-- Virtual percentualUsado: 0 when the ceiling is 0 (short-circuit, no
division), otherwise min((valorGasto / valorLimite) * 100, 100). -/
def percentualUsado (l : Limit) : ℚ :=
  if l.valorLimite = 0 then 0
  else min (l.valorGasto / l.valorLimite * 100) 100

/-- Virtual valorRestante: max(0, valorLimite - valorGasto). -/
def valorRestante (l : Limit) : ℚ := max 0 (l.valorLimite - l.valorGasto)

/-- Virtual excedido: valorGasto > valorLimite. -/
def excedido (l : Limit) : Bool := l.valorLimite < l.valorGasto

/-- Virtual status: five-tier bucket over percentualUsado. -/
def limitStatus (l : Limit) : String :=
  let percentual := percentualUsado l
  if 100 ≤ percentual then "excedido"
  else if 90 ≤ percentual then "critico"
  else if 75 ≤ percentual then "alerta"
  else if 50 ≤ percentual then "atencao"
  else "normal"

/-- Virtual proximoResetCalculado: the next reset instant derived from
ultimoReset and periodo via the JS Date setters. -/
def proximoResetCalculado (l : Limit) : JSDate :=
  match l.periodo with
  | Periodo.diario => setDatePlus 1 l.ultimoReset
  | Periodo.semanal => setDatePlus 7 l.ultimoReset
  | Periodo.mensal => setMonthPlus1 l.ultimoReset
  | Periodo.anual => setFullYearPlus1 l.ultimoReset

/-- The pre('save') middleware of Limit.js: synchronizes the alias field
pairs categoria/categoriaId and cartao/cartaoId, then stores
proximoResetCalculado into proximoReset. -/
def preSaveLimit (l : Limit) : Limit :=
  let l1 :=
    if l.categoria.isSome && l.categoriaId.isNone then
      { l with categoriaId := l.categoria }
    else if l.categoriaId.isSome && l.categoria.isNone then
      { l with categoria := l.categoriaId }
    else l
  let l2 :=
    if l1.cartao.isSome && l1.cartaoId.isNone then
      { l1 with cartaoId := l1.cartao }
    else if l1.cartaoId.isSome && l1.cartao.isNone then
      { l1 with cartao := l1.cartaoId }
    else l1
  { l2 with proximoReset := some (proximoResetCalculado l2) }

/-- Method resetar of Limit.js: zeroes valorGasto (through the currency
setter), stamps ultimoReset with the current instant, recomputes
proximoReset, and saves (running the pre-save middleware).  The current
instant new Date() is an explicit parameter of the model. -/
def resetar (l : Limit) (now : JSDate) : Limit :=
  let l1 := { l with valorGasto := round2 0, ultimoReset := now }
  preSaveLimit { l1 with proximoReset := some (proximoResetCalculado l1) }

/-- The $or query filter of Limit.updateFromTransactions: active limits of
the owner that are general, or category-kind with the given category id,
or card-kind with the given card id. -/
def limitMatches (userId : String) (categoriaId cartaoId : Option String)
    (l : Limit) : Bool :=
  l.user == userId && l.ativo &&
    (l.tipo == LTipo.geral ||
      (l.tipo == LTipo.categoria && l.categoriaId == categoriaId) ||
      (l.tipo == LTipo.cartao && l.cartaoId == cartaoId))

/-- Static Limit.updateFromTransactions: every limit matched by the $or
filter gets Math.abs(valor) added to valorGasto (through the currency
getter/setter) and is saved; all other limits are untouched. -/
def updateFromTransactions (limits : List Limit) (userId : String)
    (categoriaId cartaoId : Option String) (valor : ℚ) : List Limit :=
  limits.map fun l =>
    if limitMatches userId categoriaId cartaoId l then
      preSaveLimit { l with valorGasto := round2 (l.valorGasto + |valor|) }
    else l

/-!
## Transaction creation (src/src/controllers/transactionController.js,
createTransaction, and transactionRepository.create)
-/

/-- The request body of POST /transactions, with the alternate spellings
of the category reference accepted by the controller. -/
structure TxInput where
  tipo : TTipo
  valor : ℚ
  data : JSDate
  categoria : Option String
  categoria_id : Option String
  categoriaId : Option String
  cartao : Option String
  cartaoId : Option String
  status : Option TStatus
  deriving DecidableEq, Repr

/-- Controller normalization: categoria_id and categoriaId are folded into
categoria and deleted (categoriaId, handled second, wins). -/
def normalizeTxInput (inp : TxInput) : TxInput :=
  let i1 :=
    if inp.categoria_id.isSome then
      { inp with categoria := inp.categoria_id, categoria_id := none }
    else inp
  if i1.categoriaId.isSome then
    { i1 with categoria := i1.categoriaId, categoriaId := none }
  else i1

/-- The pre('save') middleware of Transaction.js: alias synchronization of
categoria/categoriaId and cartao/cartaoId. -/
def preSaveTx (t : Transaction) : Transaction :=
  let t1 :=
    if t.categoria.isSome && t.categoriaId.isNone then
      { t with categoriaId := t.categoria }
    else if t.categoriaId.isSome && t.categoria.isNone then
      { t with categoria := t.categoriaId }
    else t
  if t1.cartao.isSome && t1.cartaoId.isNone then
    { t1 with cartaoId := t1.cartao }
  else if t1.cartaoId.isSome && t1.cartao.isNone then
    { t1 with cartao := t1.cartaoId }
  else t1

/-- createTransaction: stamps the authenticated owner onto the body,
normalizes the category alias keys, and persists the new transaction via
transactionRepository.create (new Transaction(data).save()).  The
freshly assigned document id is a parameter. -/
def createTransaction (s : Store) (userId txId : String) (inp : TxInput) :
    Store :=
  let i := normalizeTxInput inp
  let t : Transaction := preSaveTx
    { oid := txId, user := userId, tipo := i.tipo, valor := round2 i.valor,
      data := i.data, categoria := i.categoria, categoriaId := i.categoriaId,
      cartao := i.cartao, cartaoId := i.cartaoId,
      status := i.status.getD TStatus.confirmada }
  { s with transactions := s.transactions ++ [t] }

/-!
## Category-limit controller (src/unnamed/part_009,
class CategoryLimitController)
-/

/-- First day of the month of the given instant:
new Date(ano, mes - 1, 1). -/
def monthStart (now : JSDate) : JSDate := ⟨now.year, now.month, 1⟩

/-- Last day of the month of the given instant:
new Date(ano, mes, 0, 23, 59, 59) is the last day of month (ano, mes-1);
the 23:59:59 time of day is below the granularity of the model. -/
def monthEnd (now : JSDate) : JSDate :=
  ⟨now.year, now.month, daysInMonth now.year now.month⟩

/-- The $match stage of the spending aggregation in part_009: owner,
expense type and current-month window — and no status condition. -/
def txInBudgetWindow (userId : String) (now : JSDate) (t : Transaction) :
    Bool :=
  t.user == userId && t.tipo == TTipo.despesa &&
    dateLe (monthStart now) t.data && dateLe t.data (monthEnd now)

/-- Spending aggregation ($group by the categoria field, $sum valor),
read off for one category key. -/
def spentFor (txs : List Transaction) (userId : String) (now : JSDate)
    (catId : String) : ℚ :=
  ((txs.filter fun t =>
      txInBudgetWindow userId now t && t.categoria == some catId).map
    Transaction.valor).sum

/-- Transaction count of the same aggregation for one category key. -/
def countFor (txs : List Transaction) (userId : String) (now : JSDate)
    (catId : String) : ℕ :=
  (txs.filter fun t =>
    txInBudgetWindow userId now t && t.categoria == some catId).length

/-- The lookup key a limit is registered under in limitByCategory:
(limit.categoria?._id || limit.categoriaId || limit.categoria) — the
populated categoria document when its referenced id exists, else the raw
alias fields. -/
def limitKey (cats : List Category) (l : Limit) : Option String :=
  match l.categoria with
  | some cid =>
      if cats.any fun c => c.oid == cid then some cid
      else match l.categoriaId with
        | some cid2 => some cid2
        | none => some cid
  | none => l.categoriaId

/-- The two-tier status vocabulary of the budget view (distinct from the
five-tier Limit status). -/
def budgetStatus (percentage : ℤ) : String :=
  if 100 ≤ percentage then "exceeded"
  else if 80 ≤ percentage then "warning"
  else "safe"

/-- One row of the budget view returned by the category-limit
controller. -/
structure BudgetEntry where
  id : String
  name : String
  icon : Option String
  budget : ℚ
  spent : ℚ
  remaining : ℚ
  percentage : ℤ
  transactions : ℕ
  status : String
  deriving DecidableEq, Repr

/-- The derived fields of a view row, computed identically by the inline
blocks of getCategoryLimits and upsertCategoryLimit: remaining clipped at
0, percentage Math.round(spent / budget * 100) with no upper clamp (0
when the budget is 0), and the two-tier status. -/
def mkEntry (id name : String) (icon : Option String) (budget spent : ℚ)
    (txCount : ℕ) : BudgetEntry :=
  let remaining := max 0 (budget - spent)
  let percentage : ℤ :=
    if 0 < budget then jsRound (spent / budget * 100) else 0
  { id := id, name := name, icon := icon, budget := budget, spent := spent,
    remaining := remaining, percentage := percentage,
    transactions := txCount, status := budgetStatus percentage }

/-- getCategoryLimits: the per-category budget view for the current month.
Categories of the owner with tipo despesa each produce one row, joined
with the owner's active category-kind limits (last write wins on
duplicate keys, as the forEach assignment does) and the month's
spending aggregation. -/
def getCategoryLimits (s : Store) (userId : String) (now : JSDate) :
    List BudgetEntry :=
  let limits := s.limits.filter fun l =>
    l.user == userId && l.tipo == LTipo.categoria && l.ativo
  (s.categories.filter fun c =>
      c.user == userId && c.tipo == TTipo.despesa).map fun cat =>
    let limit? := (limits.filter fun l =>
      limitKey s.categories l == some cat.oid).getLast?
    let spent := spentFor s.transactions userId now cat.oid
    let txCount := countFor s.transactions userId now cat.oid
    let budget := match limit? with
      | some l => l.valorLimite
      | none => 0
    let popCat := limit?.bind fun l =>
      l.categoria.bind fun cid => s.categories.find? fun c => c.oid == cid
    let name := match popCat with
      | some c => if c.nome ≠ "" then c.nome
                  else if cat.nome ≠ "" then cat.nome else "Categoria"
      | none => if cat.nome ≠ "" then cat.nome else "Categoria"
    let icon := match popCat with
      | some c => if c.icone ≠ "" then some c.icone
                  else if cat.icone ≠ "" then some cat.icone else none
      | none => if cat.icone ≠ "" then some cat.icone else none
    mkEntry
      (match limit? with
        | some l => l.oid
        | none => cat.oid)
      name icon budget spent txCount

/-- Outcome of upsertCategoryLimit: an HTTP 400 with a message, or an
HTTP 201 carrying the freshly computed budget view row. -/
inductive UpsertResult where
  | badRequest (message : String)
  | created (entry : BudgetEntry)
  deriving DecidableEq, Repr

/-- findOneAndUpdate: apply the update to the first limit matching the
filter (the caller handles the upsert-insert case when there is none). -/
def replaceFirst (p : Limit → Bool) (f : Limit → Limit) :
    List Limit → List Limit
  | [] => []
  | l :: rest => if p l then f l :: rest else l :: replaceFirst p f rest

/-- upsertCategoryLimit: validates presence of categoriaId and valor > 0
(JS falsiness: an empty id string or a zero value also fail) and that the
id is a 24-character string; then upserts the single category-kind limit
for (owner, categoria) with the new ceiling and ativo true; then rebuilds
the view row from Category.findById (no owner filter) and the
current-month spending aggregation (no status filter).  newId is the id a
freshly inserted limit would receive; now is the current instant
(schema default of ultimoReset, and the aggregation window). -/
def upsertCategoryLimit (s : Store) (userId newId : String)
    (categoriaId : Option String) (valor : Option ℚ) (now : JSDate) :
    UpsertResult × Store :=
  match categoriaId, valor with
  | none, _ => (.badRequest "Categoria e valor (>0) são obrigatórios.", s)
  | some _, none => (.badRequest "Categoria e valor (>0) são obrigatórios.", s)
  | some cid, some v =>
    if cid = "" || v ≤ 0 then
      (.badRequest "Categoria e valor (>0) são obrigatórios.", s)
    else if cid.length ≠ 24 then
      (.badRequest "ID da categoria inválido.", s)
    else
      let isTarget := fun (l : Limit) =>
        l.user == userId && l.categoria == some cid && l.tipo == LTipo.categoria
      let existing := s.limits.find? isTarget
      let lim : Limit := match existing with
        | some l =>
            { l with
              valorLimite := round2 v
              ativo := true
              tipo := LTipo.categoria
              categoria := some cid
              categoriaId := some cid }
        | none =>
            { oid := newId, user := userId, nome := none
              tipo := LTipo.categoria, valorLimite := round2 v
              valorGasto := 0, periodo := Periodo.mensal
              categoria := some cid, categoriaId := some cid
              cartao := none, cartaoId := none, ativo := true
              ultimoReset := now, proximoReset := none }
      let limits' := match existing with
        | some _ => replaceFirst isTarget (fun _ => lim) s.limits
        | none => s.limits ++ [lim]
      let category := s.categories.find? fun c => c.oid == cid
      let spent := spentFor s.transactions userId now cid
      let txCount := countFor s.transactions userId now cid
      let budget := lim.valorLimite
      let fallbackName := match lim.nome with
        | some n => if n ≠ "" then n else "Categoria"
        | none => "Categoria"
      let name := match category with
        | some c => if c.nome ≠ "" then c.nome else fallbackName
        | none => fallbackName
      let icon := match category with
        | some c => if c.icone ≠ "" then some c.icone else none
        | none => none
      (.created (mkEntry lim.oid name icon budget spent txCount),
        { s with limits := limits' })

/-- Outcome of deleteCategoryLimit. -/
inductive DeleteResult where
  | notFound
  | ok
  deriving DecidableEq, Repr

/-- findOneAndDelete: remove the first limit matching the predicate. -/
def removeFirst (p : Limit → Bool) : List Limit → List Limit
  | [] => []
  | l :: rest => if p l then rest else l :: removeFirst p rest

/-- deleteCategoryLimit: resolves the category by name with
Category.findOne({ nome }) — with no owner filter, so the first matching
category of any user is taken — then deletes the caller's category-kind
limit referencing the resolved id. -/
def deleteCategoryLimit (s : Store) (userId categoryName : String) :
    DeleteResult × Store :=
  match s.categories.find? fun c => c.nome == categoryName with
  | none => (.notFound, s)
  | some cat =>
      (.ok,
        { s with limits := removeFirst (fun l =>
            l.user == userId && l.categoria == some cat.oid &&
              l.tipo == LTipo.categoria) s.limits })

/-!
## Cash-flow reporting (src/unnamed/part_014 getMonthlyCashFlow and
src/unnamed/part_020 generateCashFlowReport)
-/

/-- One month of the repository aggregation. -/
structure CashFlowMonth where
  mes : ℕ
  receitas : ℚ
  despesas : ℚ
  saldo : ℚ
  deriving DecidableEq, Repr

/-- One month of the report, with the running cumulative balance. -/
structure CashFlowAccMonth where
  mes : ℕ
  receitas : ℚ
  despesas : ℚ
  saldo : ℚ
  saldoAcumulado : ℚ
  deriving DecidableEq, Repr

/-- The $match stage of getMonthlyCashFlow: owner, status confirmada, and
data between Jan 1 and Dec 31 of the year. -/
def txInYear (userId : String) (year : ℕ) (t : Transaction) : Bool :=
  t.user == userId && t.status == TStatus.confirmada &&
    dateLe ⟨year, 0, 1⟩ t.data && dateLe t.data ⟨year, 11, 31⟩

/-- Month total of one type: the absolute value of the summed valor of the
matched transactions of that month and type ($month is 1-based). -/
def monthTotal (userId : String) (year : ℕ) (txs : List Transaction)
    (m : ℕ) (tipo : TTipo) : ℚ :=
  |(((txs.filter fun t =>
      txInYear userId year t && t.data.month + 1 == m && t.tipo == tipo).map
    Transaction.valor).sum)|

/-- transactionRepository.getMonthlyCashFlow: the aggregation groups the
matched transactions by 1-based month; only months that actually contain
matched transactions appear, sorted ascending. -/
def getMonthlyCashFlow (userId : String) (year : ℕ)
    (txs : List Transaction) : List CashFlowMonth :=
  (((List.range 12).map (· + 1)).filter fun m =>
      txs.any fun t => txInYear userId year t && t.data.month + 1 == m).map
    fun m =>
      let receitas := monthTotal userId year txs m TTipo.receita
      let despesas := monthTotal userId year txs m TTipo.despesa
      { mes := m, receitas := receitas, despesas := despesas,
        saldo := receitas - despesas }

/-- The running-total pass of generateCashFlowReport (the mutable
saldoAcumulado of the map callback). -/
def withAccum (acc : ℚ) : List CashFlowMonth → List CashFlowAccMonth
  | [] => []
  | f :: rest =>
      { mes := f.mes, receitas := f.receitas, despesas := f.despesas,
        saldo := f.saldo, saldoAcumulado := acc + f.saldo }
        :: withAccum (acc + f.saldo) rest

/-- The yearly summary block of the report. -/
structure CashFlowSummary where
  totalReceitas : ℚ
  totalDespesas : ℚ
  saldoTotal : ℚ
  deriving DecidableEq, Repr

/-- The report returned by reportService.generateCashFlowReport (the
analises text block is not modelled). -/
structure CashFlowReport where
  ano : ℕ
  fluxoMensal : List CashFlowAccMonth
  resumoAnual : CashFlowSummary
  deriving DecidableEq, Repr

/-- generateCashFlowReport: fills the 12 months in order, substituting
all-zero rows for months absent from the aggregation, then threads the
cumulative balance and totals. -/
def generateCashFlowReport (userId : String) (year : ℕ)
    (txs : List Transaction) : CashFlowReport :=
  let fluxoCaixa := getMonthlyCashFlow userId year txs
  let fluxoCompleto := (List.range 12).map fun i =>
    (fluxoCaixa.find? fun f => f.mes == i + 1).getD
      { mes := i + 1, receitas := 0, despesas := 0, saldo := 0 }
  let totalReceitas := (fluxoCompleto.map CashFlowMonth.receitas).sum
  let totalDespesas := (fluxoCompleto.map CashFlowMonth.despesas).sum
  { ano := year,
    fluxoMensal := withAccum 0 fluxoCompleto,
    resumoAnual :=
      { totalReceitas := totalReceitas, totalDespesas := totalDespesas,
        saldoTotal := totalReceitas - totalDespesas } }

/-!
## Helper lemmas
-/

/-- The pre-save middleware only rewrites the four alias reference fields
and proximoReset; every other field, and in particular the pair
(periodo, ultimoReset) that determines the next reset, is untouched. -/
theorem preSaveLimit_spec (l : Limit) :
    ∃ c1 c2 c3 c4, preSaveLimit l =
      { l with
        categoria := c1
        categoriaId := c2
        cartao := c3
        cartaoId := c4
        proximoReset := some (proximoResetCalculado l) } := by
  unfold preSaveLimit
  dsimp only
  split_ifs <;> exact ⟨_, _, _, _, rfl⟩

theorem proximoResetCalculado_congr {a b : Limit} (h1 : a.periodo = b.periodo)
    (h2 : a.ultimoReset = b.ultimoReset) :
    proximoResetCalculado a = proximoResetCalculado b := by
  unfold proximoResetCalculado
  rw [h1, h2]

/-- Field-level description of one reset. -/
theorem resetar_spec (l : Limit) (now : JSDate) :
    (resetar l now).valorGasto = 0 ∧
    (resetar l now).ultimoReset = now ∧
    (resetar l now).periodo = l.periodo ∧
    (resetar l now).proximoReset =
      some (proximoResetCalculado (resetar l now)) := by
  unfold resetar
  dsimp only
  obtain ⟨c1, c2, c3, c4, he⟩ := preSaveLimit_spec
    { l with
      valorGasto := round2 0
      ultimoReset := now
      proximoReset := some (proximoResetCalculado
        { l with valorGasto := round2 0, ultimoReset := now }) }
  rw [he]
  exact ⟨round2_zero, rfl, rfl,
    congrArg some (proximoResetCalculado_congr rfl rfl)⟩

/-!
## Claims
-/

/-- Concrete fixtures used by witnesses and counterexamples. -/
def lim5a : Limit :=
  ⟨"l5a", "u1", none, LTipo.geral, 100, 150, Periodo.mensal, none, none,
    none, none, true, ⟨2025, 5, 1⟩, none⟩

def lim5b : Limit :=
  ⟨"l5b", "u1", none, LTipo.geral, 0, 50, Periodo.mensal, none, none,
    none, none, true, ⟨2025, 5, 1⟩, none⟩

/-- C5: for limits with a positive ceiling the clamped percentage stays in
[0, 100] while the exceeded flag is exactly accrued > ceiling; a zero
ceiling short-circuits to percentage 0 and status normal, so the division
never happens. -/
theorem C5_derived_state (l : Limit) :
    (0 < l.valorLimite → 0 ≤ l.valorGasto →
      0 ≤ percentualUsado l ∧ percentualUsado l ≤ 100) ∧
    (excedido l = true ↔ l.valorLimite < l.valorGasto) ∧
    (l.valorLimite = 0 → percentualUsado l = 0 ∧ limitStatus l = "normal") := by
  refine ⟨fun hL hG => ?_, ?_, fun h0 => ?_⟩
  · unfold percentualUsado
    rw [if_neg hL.ne']
    constructor
    · apply le_min
      · exact mul_nonneg (div_nonneg hG hL.le) (by norm_num)
      · norm_num
    · exact min_le_right _ _
  · simp [excedido]
  · constructor
    · unfold percentualUsado
      rw [if_pos h0]
    · have hp : percentualUsado l = 0 := by
        unfold percentualUsado
        rw [if_pos h0]
      unfold limitStatus
      rw [hp]
      norm_num

/-- Witness for C5 at ceiling 100 / accrued 150 and at ceiling 0. -/
theorem C5_derived_state_witness :
    ((0 : ℚ) < lim5a.valorLimite) ∧ ((0 : ℚ) ≤ lim5a.valorGasto) ∧
    (0 ≤ percentualUsado lim5a ∧ percentualUsado lim5a ≤ 100) ∧
    excedido lim5a = true ∧
    (percentualUsado lim5b = 0 ∧ limitStatus lim5b = "normal") := by
  have ha := C5_derived_state lim5a
  have hb := C5_derived_state lim5b
  refine ⟨by norm_num [lim5a], by norm_num [lim5a],
    ha.1 (by norm_num [lim5a]) (by norm_num [lim5a]), ?_, hb.2.2 rfl⟩
  exact ha.2.1.mpr (by norm_num [lim5a])

/-- C7: one reset zeroes the accrued amount, stamps lastReset with the
current instant and recomputes nextReset; a second reset at a strictly
later instant leaves the accrued amount at 0 both times and strictly
increases lastReset. -/
theorem C7_reset_idempotent (l : Limit) (t1 t2 : JSDate)
    (h : dateLt t1 t2 = true) :
    (resetar l t1).valorGasto = 0 ∧
    (resetar (resetar l t1) t2).valorGasto = 0 ∧
    (resetar l t1).ultimoReset = t1 ∧
    (resetar (resetar l t1) t2).ultimoReset = t2 ∧
    dateLt (resetar l t1).ultimoReset
      (resetar (resetar l t1) t2).ultimoReset = true ∧
    (resetar l t1).proximoReset =
      some (proximoResetCalculado (resetar l t1)) ∧
    (resetar (resetar l t1) t2).proximoReset =
      some (proximoResetCalculado (resetar (resetar l t1) t2)) := by
  obtain ⟨hg1, hu1, _, hp1⟩ := resetar_spec l t1
  obtain ⟨hg2, hu2, _, hp2⟩ := resetar_spec (resetar l t1) t2
  refine ⟨hg1, hg2, hu1, hu2, ?_, hp1, hp2⟩
  rw [hu1, hu2]
  exact h

/-- Witness for C7 at two consecutive concrete instants. -/
theorem C7_reset_idempotent_witness :
    dateLt ⟨2025, 0, 1⟩ ⟨2025, 0, 2⟩ = true ∧
    (resetar lim5a ⟨2025, 0, 1⟩).valorGasto = 0 ∧
    (resetar (resetar lim5a ⟨2025, 0, 1⟩) ⟨2025, 0, 2⟩).valorGasto = 0 ∧
    dateLt (resetar lim5a ⟨2025, 0, 1⟩).ultimoReset
      (resetar (resetar lim5a ⟨2025, 0, 1⟩) ⟨2025, 0, 2⟩).ultimoReset
        = true := by
  have h := C7_reset_idempotent lim5a ⟨2025, 0, 1⟩ ⟨2025, 0, 2⟩ (by decide)
  exact ⟨by decide, h.1, h.2.1, h.2.2.2.2.1⟩

/-- Placeholder default element for positional list access. -/
def dLimit : Limit :=
  ⟨"", "", none, LTipo.geral, 0, 0, Periodo.mensal, none, none, none,
    none, false, ⟨1970, 0, 1⟩, none⟩

theorem preSaveLimit_valorGasto (l : Limit) :
    (preSaveLimit l).valorGasto = l.valorGasto := by
  obtain ⟨c1, c2, c3, c4, he⟩ := preSaveLimit_spec l
  rw [he]

/-- C2: the accrual operation adds abs(amount) to the accrued amount of
exactly the active matching limits (general, same-category, or same-card
limits of the owner), each one independently, and leaves every other
limit — non-matching or inactive — entirely unchanged.  Stored amounts
and the expense amount are 2-decimal currency values, so the getter and
setter rounding is the identity. -/
theorem C2_applyExpense (limits : List Limit) (userId : String)
    (categoriaId cartaoId : Option String) (valor : ℚ)
    (hv : IsRound2 valor) :
    (updateFromTransactions limits userId categoriaId cartaoId valor).length
        = limits.length ∧
    ∀ i, i < limits.length →
      (limitMatches userId categoriaId cartaoId (limits.getD i dLimit)
          = true →
        IsRound2 (limits.getD i dLimit).valorGasto →
        ((updateFromTransactions limits userId categoriaId cartaoId
            valor).getD i dLimit).valorGasto
          = (limits.getD i dLimit).valorGasto + |valor|) ∧
      (limitMatches userId categoriaId cartaoId (limits.getD i dLimit)
          = false →
        (updateFromTransactions limits userId categoriaId cartaoId
            valor).getD i dLimit = limits.getD i dLimit) := by
  constructor
  · simp [updateFromTransactions]
  · intro i hi
    have hiu : i <
        (updateFromTransactions limits userId categoriaId cartaoId
          valor).length := by
      simp [updateFromTransactions, hi]
    rw [List.getD_eq_getElem _ _ hi, List.getD_eq_getElem _ _ hiu]
    unfold updateFromTransactions
    rw [List.getElem_map]
    constructor
    · intro hm hg
      rw [if_pos hm, preSaveLimit_valorGasto]
      exact round2_of_isRound2 (isRound2_add hg (isRound2_abs hv))
    · intro hm
      rw [hm]
      simp

/-- Fixtures for the C2 scenario: one general limit (ceiling 1000) and one
category limit (ceiling 300), both with accrued 0. -/
def limGeral : Limit :=
  ⟨"lg", "u1", none, LTipo.geral, 1000, 0, Periodo.mensal, none, none,
    none, none, true, ⟨2025, 5, 1⟩, none⟩

def limCat : Limit :=
  ⟨"lc", "u1", none, LTipo.categoria, 300, 0, Periodo.mensal, some "c1",
    some "c1", none, none, true, ⟨2025, 5, 1⟩, none⟩

/-- Witness for C2: one expense of 80 raises both the matching general
limit and the matching category limit from accrued 0 to accrued 80. -/
theorem C2_applyExpense_witness :
    limitMatches "u1" (some "c1") none limGeral = true ∧
    limitMatches "u1" (some "c1") none limCat = true ∧
    ((updateFromTransactions [limGeral, limCat] "u1" (some "c1") none
        80).getD 0 dLimit).valorGasto = 80 ∧
    ((updateFromTransactions [limGeral, limCat] "u1" (some "c1") none
        80).getD 1 dLimit).valorGasto = 80 := by
  have h := C2_applyExpense [limGeral, limCat] "u1" (some "c1") none 80
    ⟨8000, by norm_num⟩
  have h0 := (h.2 0 (by norm_num)).1 (by decide) ⟨0, by norm_num [limGeral]⟩
  have h1 := (h.2 1 (by norm_num)).1 (by decide) ⟨0, by norm_num [limCat]⟩
  refine ⟨by decide, by decide, ?_, ?_⟩
  · rw [h0]
    norm_num [limGeral]
  · rw [h1]
    norm_num [limCat]

/-- Fixtures for C1: a store holding one active general limit of the
owner, and an expense request body of amount 80. -/
def cs1 : Store := ⟨[], [limGeral], []⟩

def inp1 : TxInput :=
  ⟨TTipo.despesa, 80, ⟨2025, 5, 10⟩, some "c1", none, none, none, none,
    none⟩

/-- Counterexample for C1: recording an expense of 80 through the public
create operation leaves the matching active general limit at accrued 0 —
no limit accrual happens on this path. -/
theorem C1_counterexample :
    inp1.tipo = TTipo.despesa ∧
    limitMatches "u1" (some "c1") none limGeral = true ∧
    limGeral.valorGasto = 0 ∧
    (createTransaction cs1 "u1" "t1" inp1).limits.map Limit.valorGasto
      = [0] ∧
    (0 : ℚ) ≠ limGeral.valorGasto + |inp1.valor| := by
  refine ⟨rfl, by decide, by norm_num [limGeral], ?_, ?_⟩
  · simp [createTransaction, cs1, limGeral]
  · norm_num [limGeral, inp1]

/-- C1 (amended): the public create operation records the transaction and
touches no limit: the limits (and categories) of the store are unchanged,
and exactly one transaction is appended.  The accrual routine
updateFromTransactions exists but is not invoked by createTransaction. -/
theorem C1_create_no_accrual (s : Store) (userId txId : String)
    (inp : TxInput) :
    (createTransaction s userId txId inp).limits = s.limits ∧
    (createTransaction s userId txId inp).categories = s.categories ∧
    (createTransaction s userId txId inp).transactions.length
      = s.transactions.length + 1 := by
  refine ⟨rfl, rfl, ?_⟩
  simp [createTransaction]

theorem spentFor_statusMap (f : Transaction → TStatus)
    (txs : List Transaction) (uid : String) (now : JSDate) (cid : String) :
    spentFor (txs.map fun t => { t with status := f t }) uid now cid
      = spentFor txs uid now cid := by
  induction txs with
  | nil => rfl
  | cons t ts ih =>
    unfold spentFor at ih ⊢
    simp only [List.map_cons, List.filter_cons]
    have hcond : (txInBudgetWindow uid now { t with status := f t }
          && ({ t with status := f t }).categoria == some cid)
        = (txInBudgetWindow uid now t && t.categoria == some cid) := rfl
    rw [hcond]
    cases h : (txInBudgetWindow uid now t && t.categoria == some cid) with
    | true =>
        simp only [if_true, List.map_cons, List.sum_cons]
        have hv : ({ t with status := f t }).valor = t.valor := rfl
        rw [hv, ih]
    | false =>
        simp only [Bool.false_eq_true, if_false]
        exact ih

theorem countFor_statusMap (f : Transaction → TStatus)
    (txs : List Transaction) (uid : String) (now : JSDate) (cid : String) :
    countFor (txs.map fun t => { t with status := f t }) uid now cid
      = countFor txs uid now cid := by
  induction txs with
  | nil => rfl
  | cons t ts ih =>
    unfold countFor at ih ⊢
    simp only [List.map_cons, List.filter_cons]
    have hcond : (txInBudgetWindow uid now { t with status := f t }
          && ({ t with status := f t }).categoria == some cid)
        = (txInBudgetWindow uid now t && t.categoria == some cid) := rfl
    rw [hcond]
    cases h : (txInBudgetWindow uid now t && t.categoria == some cid) with
    | true =>
        simp only [if_true, List.length_cons]
        rw [ih]
    | false =>
        simp only [Bool.false_eq_true, if_false]
        exact ih

/-- Fixture for C3: one expense category and one pending (not confirmed)
expense transaction of 50 inside the current month. -/
def catP : Category := ⟨"c1", "u1", "Food", TTipo.despesa, "folder"⟩

def txPend : Transaction :=
  ⟨"t1", "u1", TTipo.despesa, 50, ⟨2025, 5, 10⟩, some "c1", some "c1",
    none, none, TStatus.pendente⟩

def sPend : Store := ⟨[catP], [], [txPend]⟩

/-- Counterexample for C3: a pending expense of 50 is counted by the
budget view — spent is 50 and the transaction count is 1, not 0. -/
theorem C3_counterexample :
    txPend.status = TStatus.pendente ∧
    (getCategoryLimits sPend "u1" ⟨2025, 5, 15⟩).map
        (fun e => (e.spent, e.transactions)) = [(50, 1)] ∧
    ((50 : ℚ), (1 : ℕ)) ≠ ((0 : ℚ), (0 : ℕ)) := by
  refine ⟨rfl, ?_, by norm_num⟩
  simp [getCategoryLimits, spentFor, countFor, txInBudgetWindow,
    monthStart, monthEnd, dateLe, catP, txPend, sPend, limitKey,
    daysInMonth, isLeap, mkEntry, budgetStatus, jsRound]

/-- C3 (amended): the spending aggregation behind the budget view (both
getCategoryLimits and the view returned by upsertCategoryLimit) has no
status condition: every expense transaction of the owner inside the
current-month window contributes to spent, percentage and the
transaction count, with pending and cancelled transactions counted
exactly like confirmed ones.  Formally, rewriting the status of every
stored transaction in an arbitrary way does not change either view. -/
theorem C3_view_ignores_status (s : Store) (userId newId : String)
    (cid : Option String) (v : Option ℚ) (now : JSDate)
    (f : Transaction → TStatus) :
    getCategoryLimits
        { s with transactions :=
            s.transactions.map fun t => { t with status := f t } }
        userId now
      = getCategoryLimits s userId now ∧
    (upsertCategoryLimit
        { s with transactions :=
            s.transactions.map fun t => { t with status := f t } }
        userId newId cid v now).1
      = (upsertCategoryLimit s userId newId cid v now).1 := by
  constructor
  · unfold getCategoryLimits
    dsimp only
    simp only [spentFor_statusMap, countFor_statusMap]
  · cases cid with
    | none => rfl
    | some c =>
      cases v with
      | none => rfl
      | some vv =>
        unfold upsertCategoryLimit
        dsimp only
        split_ifs <;>
          simp only [spentFor_statusMap, countFor_statusMap]

theorem jsRound_eq {q : ℚ} {n : ℤ} (h1 : (n : ℚ) ≤ q + 1/2)
    (h2 : q + 1/2 < n + 1) : jsRound q = n := by
  unfold jsRound
  rw [Int.floor_eq_iff]
  exact ⟨h1, by linarith⟩

/-- Exceeding the budget in a view row: the percentage is the unclamped
rounded ratio (at least 100), remaining is clipped to 0 and the status is
exceeded. -/
theorem mkEntry_exceeded (id name : String) (icon : Option String)
    (budget spent : ℚ) (txc : ℕ) (hb : 0 < budget) (hs : budget < spent) :
    (mkEntry id name icon budget spent txc).percentage
        = jsRound (spent / budget * 100) ∧
    100 ≤ (mkEntry id name icon budget spent txc).percentage ∧
    (mkEntry id name icon budget spent txc).remaining = 0 ∧
    (mkEntry id name icon budget spent txc).status = "exceeded" := by
  have hper : (mkEntry id name icon budget spent txc).percentage
      = jsRound (spent / budget * 100) := by
    unfold mkEntry
    dsimp only
    rw [if_pos hb]
  have hx : (100 : ℚ) ≤ spent / budget * 100 := by
    rw [div_mul_eq_mul_div, le_div_iff₀ hb]
    nlinarith
  have h100 : (100 : ℤ) ≤ jsRound (spent / budget * 100) := by
    unfold jsRound
    apply Int.le_floor.mpr
    push_cast
    linarith
  refine ⟨hper, ?_, ?_, ?_⟩
  · rw [hper]
    exact h100
  · unfold mkEntry
    dsimp only
    rw [max_eq_left (by linarith)]
  · unfold mkEntry budgetStatus
    dsimp only
    rw [if_pos hb, if_pos h100]

/-- C4 (amended): in the budget view of getCategoryLimits and in the view
returned by upsertCategoryLimit, when spent exceeds a positive budget the
reported percentage is the raw rounded ratio with no clamp at 100 (so it
is at least 100 and can exceed it), remaining is 0 and the status is
exceeded. -/
theorem C4_percentage_unclamped (s : Store) (userId : String)
    (now : JSDate) :
    (∀ e ∈ getCategoryLimits s userId now, 0 < e.budget →
      e.budget < e.spent →
      e.percentage = jsRound (e.spent / e.budget * 100) ∧
      100 ≤ e.percentage ∧ e.remaining = 0 ∧ e.status = "exceeded") ∧
    (∀ (newId : String) (cid : Option String) (v : Option ℚ)
        (e : BudgetEntry),
      (upsertCategoryLimit s userId newId cid v now).1
          = UpsertResult.created e →
      0 < e.budget → e.budget < e.spent →
      e.percentage = jsRound (e.spent / e.budget * 100) ∧
      100 ≤ e.percentage ∧ e.remaining = 0 ∧ e.status = "exceeded") := by
  constructor
  · intro e he hb hs
    unfold getCategoryLimits at he
    simp only [List.mem_map] at he
    obtain ⟨cat, hmem, rfl⟩ := he
    exact mkEntry_exceeded _ _ _ _ _ _ hb hs
  · intro newId cid v e heq hb hs
    cases cid with
    | none => simp [upsertCategoryLimit] at heq
    | some c =>
      cases v with
      | none => simp [upsertCategoryLimit] at heq
      | some vv =>
        unfold upsertCategoryLimit at heq
        dsimp only at heq
        split_ifs at heq with h1 h2
        dsimp only at heq
        rw [UpsertResult.created.injEq] at heq
        subst heq
        exact mkEntry_exceeded _ _ _ _ _ _ hb hs

/-- Fixtures for the C4 scenario: a category limit of 500 and a confirmed
expense of 550 inside the current month. -/
def catC : Category :=
  ⟨"cccccccccccccccccccccccc", "u1", "Food", TTipo.despesa, "folder"⟩

def limC : Limit :=
  ⟨"l1", "u1", none, LTipo.categoria, 500, 0, Periodo.mensal,
    some "cccccccccccccccccccccccc", some "cccccccccccccccccccccccc",
    none, none, true, ⟨2025, 5, 1⟩, none⟩

def txC : Transaction :=
  ⟨"t2", "u1", TTipo.despesa, 550, ⟨2025, 5, 12⟩,
    some "cccccccccccccccccccccccc", some "cccccccccccccccccccccccc",
    none, none, TStatus.confirmada⟩

def sC : Store := ⟨[catC], [limC], [txC]⟩

def nowC : JSDate := ⟨2025, 5, 15⟩

/-- Counterexample for C4: with budget 500 and confirmed spend 550 both
views report percentage 110 — the raw rounded ratio, not clamped to
100. -/
theorem C4_counterexample :
    txC.status = TStatus.confirmada ∧
    (getCategoryLimits sC "u1" nowC).map
        (fun e => (e.budget, e.spent, e.percentage, e.remaining, e.status))
      = [(500, 550, 110, 0, "exceeded")] ∧
    (upsertCategoryLimit sC "u1" "l9" (some "cccccccccccccccccccccccc")
        (some 500) nowC).1
      = UpsertResult.created (mkEntry "l1" "Food" (some "folder") 500 550 1) ∧
    (mkEntry "l1" "Food" (some "folder") 500 550 1).percentage = 110 ∧
    (110 : ℤ) ≠ 100 := by
  refine ⟨rfl, ?_, ?_, ?_, by norm_num⟩
  · simp [getCategoryLimits, spentFor, countFor, txInBudgetWindow,
      monthStart, monthEnd, dateLe, catC, limC, txC, sC, nowC, limitKey,
      daysInMonth, isLeap, mkEntry, budgetStatus, jsRound]
    norm_num
  · simp [upsertCategoryLimit, spentFor, countFor, txInBudgetWindow,
      monthStart, monthEnd, dateLe, catC, limC, txC, sC, nowC,
      daysInMonth, isLeap, round2, jsRound, mkEntry, budgetStatus]
    norm_num
    decide
  · norm_num [mkEntry, budgetStatus, jsRound]

/-- Witness for C4 (amended) at the concrete 500/550 store. -/
theorem C4_percentage_unclamped_witness :
    (mkEntry "l1" "Food" (some "folder") 500 550 1).percentage
        = jsRound ((mkEntry "l1" "Food" (some "folder") 500 550 1).spent
            / (mkEntry "l1" "Food" (some "folder") 500 550 1).budget
            * 100) ∧
    100 ≤ (mkEntry "l1" "Food" (some "folder") 500 550 1).percentage ∧
    (mkEntry "l1" "Food" (some "folder") 500 550 1).remaining = 0 ∧
    (mkEntry "l1" "Food" (some "folder") 500 550 1).status
        = "exceeded" := by
  have heq : (upsertCategoryLimit sC "u1" "l9"
      (some "cccccccccccccccccccccccc") (some 500) nowC).1
      = UpsertResult.created
          (mkEntry "l1" "Food" (some "folder") 500 550 1) := by
    simp [upsertCategoryLimit, spentFor, countFor, txInBudgetWindow,
      monthStart, monthEnd, dateLe, catC, limC, txC, sC, nowC,
      daysInMonth, isLeap, round2, jsRound, mkEntry, budgetStatus]
    norm_num
    decide
  exact (C4_percentage_unclamped sC "u1" nowC).2 "l9"
    (some "cccccccccccccccccccccccc") (some 500)
    (mkEntry "l1" "Food" (some "folder") 500 550 1) heq
    (by norm_num [mkEntry]) (by norm_num [mkEntry])

/-- Modelled from the spec: "monthly = +1 calendar month (same
day-of-month, clamped to month length)" — the clamped calendar-offset
reading of the monthly next reset, for comparison with the code. -/
def addMonthClamped (d : JSDate) : JSDate :=
  if d.month = 11 then
    ⟨d.year + 1, 0, min d.day (daysInMonth (d.year + 1) 0)⟩
  else ⟨d.year, d.month + 1, min d.day (daysInMonth d.year (d.month + 1))⟩

/-- Fixture for C6: a monthly limit whose last reset is January 31,
2025. -/
def lim6 : Limit :=
  ⟨"l6", "u1", none, LTipo.geral, 100, 0, Periodo.mensal, none, none,
    none, none, true, ⟨2025, 0, 31⟩, none⟩

/-- Counterexample for C6: a monthly limit last reset on January 31, 2025
gets its next reset on March 3, 2025 (the JS setMonth overflow), not on
February 28 as the clamped calendar offset demands. -/
theorem C6_counterexample :
    lim6.periodo = Periodo.mensal ∧
    lim6.ultimoReset = ⟨2025, 0, 31⟩ ∧
    proximoResetCalculado lim6 = ⟨2025, 2, 3⟩ ∧
    addMonthClamped ⟨2025, 0, 31⟩ = ⟨2025, 1, 28⟩ ∧
    proximoResetCalculado lim6 ≠ addMonthClamped lim6.ultimoReset := by
  refine ⟨rfl, rfl, by decide, by decide, by decide⟩

/-- C6 (amended): nextReset is lastReset advanced by one period, where
daily adds 1 calendar day and weekly 7; monthly increments the month
keeping the day-of-month when that day exists in the target month (there
it agrees with the clamped calendar offset), but a day beyond the target
month's length overflows into the month after it by the excess days
instead of clamping; yearly increments the year, with the same overflow
normalization (February 29 only). -/
theorem setMonthPlus1_spec (d : JSDate) (hv : ValidDate d) :
    (d.day ≤ daysInMonth (addMonthClamped d).year
        (addMonthClamped d).month →
      setMonthPlus1 d = addMonthClamped d) ∧
    (daysInMonth (addMonthClamped d).year (addMonthClamped d).month
        < d.day →
      setMonthPlus1 d ≠ addMonthClamped d ∧
      setMonthPlus1 d =
        ⟨(addMonthClamped d).year, (addMonthClamped d).month + 1,
          d.day - daysInMonth (addMonthClamped d).year
            (addMonthClamped d).month⟩) := by
  obtain ⟨y, m, day⟩ := d
  have hm12 : m < 12 := hv.1
  have hd1 : 1 ≤ day := hv.2.1
  have hd2 : day ≤ daysInMonth y m := hv.2.2
  have hd31 : day ≤ 31 := le_trans hd2 (daysInMonth_le _ _)
  by_cases hm11 : m = 11
  · subst hm11
    have h31 : daysInMonth (y + 1) 0 = 31 := rfl
    simp only [setMonthPlus1, addMonthClamped, reduceIte]
    rw [h31]
    constructor
    · intro hle
      rw [normDate_of_le (by rw [h31]; omega)]
      rw [min_eq_left hd31]
    · intro hgt
      have hgt2 : 31 < day := hgt
      omega
  · simp only [setMonthPlus1, addMonthClamped, hm11, reduceIte]
    constructor
    · intro hle
      rw [normDate_of_le hle, min_eq_left hle]
    · intro hgt
      have hm11t : m + 1 ≠ 11 := by
        intro he
        have h31 : daysInMonth y 11 = 31 := rfl
        rw [he, h31] at hgt
        omega
      have h28 := le_daysInMonth y (m + 1 + 1)
      have h28b := le_daysInMonth y (m + 1)
      have hroll := normDate_rollover (y := y) (m := m + 1) (d := day)
        (by omega) hgt (by omega)
      rw [hroll]
      refine ⟨?_, rfl⟩
      intro he
      have := congrArg JSDate.month he
      dsimp at this
      omega

theorem setFullYearPlus1_spec (d : JSDate) (hv : ValidDate d) :
    (d.day ≤ daysInMonth (d.year + 1) d.month →
      setFullYearPlus1 d = ⟨d.year + 1, d.month, d.day⟩) ∧
    (daysInMonth (d.year + 1) d.month < d.day →
      setFullYearPlus1 d =
        ⟨d.year + 1, d.month + 1,
          d.day - daysInMonth (d.year + 1) d.month⟩) := by
  obtain ⟨y, m, day⟩ := d
  have hm12 : m < 12 := hv.1
  have hd1 : 1 ≤ day := hv.2.1
  have hd2 : day ≤ daysInMonth y m := hv.2.2
  have hd31 : day ≤ 31 := le_trans hd2 (daysInMonth_le _ _)
  constructor
  · intro hle
    simp only [setFullYearPlus1]
    exact normDate_of_le hle
  · intro hgt
    have hgt : daysInMonth (y + 1) m < day := hgt
    simp only [setFullYearPlus1]
    have hm11 : m ≠ 11 := by
      intro he
      have h31 : daysInMonth (y + 1) 11 = 31 := rfl
      rw [he, h31] at hgt
      omega
    have h28 := le_daysInMonth (y + 1) (m + 1)
    have h28b := le_daysInMonth (y + 1) m
    exact normDate_rollover (by omega) hgt (by omega)

/-- C6 (amended): nextReset is lastReset advanced by one period, where
daily adds 1 calendar day and weekly 7; monthly increments the month
keeping the day-of-month when that day exists in the target month (there
it agrees with the clamped calendar offset), but a day beyond the target
month's length overflows into the month after it by the excess days
instead of clamping; yearly increments the year, with the same overflow
normalization (February 29 only). -/
theorem C6_next_reset (l : Limit) (hv : ValidDate l.ultimoReset) :
    (l.periodo = Periodo.diario →
      proximoResetCalculado l = addDays 1 l.ultimoReset) ∧
    (l.periodo = Periodo.semanal →
      proximoResetCalculado l = addDays 7 l.ultimoReset) ∧
    (l.periodo = Periodo.mensal →
      (l.ultimoReset.day ≤ daysInMonth (addMonthClamped l.ultimoReset).year
          (addMonthClamped l.ultimoReset).month →
        proximoResetCalculado l = addMonthClamped l.ultimoReset) ∧
      (daysInMonth (addMonthClamped l.ultimoReset).year
          (addMonthClamped l.ultimoReset).month < l.ultimoReset.day →
        proximoResetCalculado l ≠ addMonthClamped l.ultimoReset ∧
        proximoResetCalculado l =
          ⟨(addMonthClamped l.ultimoReset).year,
            (addMonthClamped l.ultimoReset).month + 1,
            l.ultimoReset.day - daysInMonth
              (addMonthClamped l.ultimoReset).year
              (addMonthClamped l.ultimoReset).month⟩)) ∧
    (l.periodo = Periodo.anual →
      (l.ultimoReset.day
          ≤ daysInMonth (l.ultimoReset.year + 1) l.ultimoReset.month →
        proximoResetCalculado l =
          ⟨l.ultimoReset.year + 1, l.ultimoReset.month,
            l.ultimoReset.day⟩) ∧
      (daysInMonth (l.ultimoReset.year + 1) l.ultimoReset.month
          < l.ultimoReset.day →
        proximoResetCalculado l =
          ⟨l.ultimoReset.year + 1, l.ultimoReset.month + 1,
            l.ultimoReset.day
              - daysInMonth (l.ultimoReset.year + 1)
                  l.ultimoReset.month⟩)) := by
  refine ⟨fun hp => ?_, fun hp => ?_, fun hp => ?_, fun hp => ?_⟩
  · simp only [proximoResetCalculado, hp]
    exact setDatePlus_eq_addDays _ hv 1
  · simp only [proximoResetCalculado, hp]
    exact setDatePlus_eq_addDays _ hv 7
  · simp only [proximoResetCalculado, hp]
    exact setMonthPlus1_spec _ hv
  · simp only [proximoResetCalculado, hp]
    exact setFullYearPlus1_spec _ hv

/-- Fixture for the C6 witness: a daily limit on a valid date. -/
def lim6w : Limit :=
  ⟨"l6w", "u1", none, LTipo.geral, 100, 0, Periodo.diario, none, none,
    none, none, true, ⟨2025, 5, 10⟩, none⟩

/-- Witness for C6 (amended) at a daily limit on June 10, 2025. -/
theorem C6_next_reset_witness :
    ValidDate lim6w.ultimoReset ∧
    proximoResetCalculado lim6w = addDays 1 lim6w.ultimoReset := by
  have h := C6_next_reset lim6w (by decide)
  exact ⟨by decide, h.1 rfl⟩

/-- An element of the list that is gone after removeFirst satisfied the
removal predicate. -/
theorem removeFirst_mem (p : Limit → Bool) :
    ∀ (xs : List Limit) (x : Limit), x ∈ xs → x ∉ removeFirst p xs →
      p x = true := by
  intro xs
  induction xs with
  | nil => intro x hx
           cases hx
  | cons a rest ih =>
    intro x hx hnx
    unfold removeFirst at hnx
    by_cases hp : p a = true
    · rw [if_pos hp] at hnx
      rcases List.mem_cons.mp hx with rfl | hr
      · exact hp
      · exact absurd hr hnx
    · rw [if_neg hp] at hnx
      rcases List.mem_cons.mp hx with rfl | hr
      · exact absurd (List.mem_cons_self _ _) hnx
      · exact ih x hr (fun hm => hnx (List.mem_cons_of_mem _ hm))

/-- Fixtures for C9: the caller u1 owns category Food (id c10) and one
limit on it; another user u2 owns a category with the same name Food,
inserted earlier. -/
def catFood1 : Category := ⟨"c10", "u1", "Food", TTipo.despesa, "folder"⟩

def catFood2 : Category := ⟨"c99", "u2", "Food", TTipo.despesa, "folder"⟩

def limFood : Limit :=
  ⟨"lf", "u1", none, LTipo.categoria, 500, 0, Periodo.mensal, some "c10",
    some "c10", none, none, true, ⟨2025, 5, 1⟩, none⟩

def sOwn : Store := ⟨[catFood1], [limFood], []⟩

def sShared : Store := ⟨[catFood2, catFood1], [limFood], []⟩

/-- Counterexample for C9: two stores that differ only in a record owned
by another user (u2's category named Food) make deleteCategoryLimit
behave differently for u1 — with the foreign category present, the
caller's own Food limit is no longer deleted, because the name is
resolved by Category.findOne({ nome }) without an owner filter. -/
theorem C9_counterexample :
    catFood2.user ≠ "u1" ∧
    sShared.categories = catFood2 :: sOwn.categories ∧
    sShared.limits = sOwn.limits ∧
    sShared.transactions = sOwn.transactions ∧
    (deleteCategoryLimit sOwn "u1" "Food").2.limits = [] ∧
    (deleteCategoryLimit sShared "u1" "Food").2.limits = [limFood] ∧
    ([] : List Limit) ≠ [limFood] := by
  refine ⟨by decide, rfl, rfl, rfl, ?_, ?_, by simp⟩
  · simp [deleteCategoryLimit, sOwn, catFood1, limFood, removeFirst]
  · simp [deleteCategoryLimit, sShared, catFood1, catFood2, limFood,
      removeFirst]

/-- C9 (amended): the limit deletion itself is owner-scoped — the
operation only ever removes a limit owned by the caller and touches no
other collection — and when every category in the store belongs to the
caller the name also resolves to a category of the caller; but the name
lookup itself has no owner filter, so with foreign categories present
the resolved category (and hence the outcome) can depend on other
users' records. -/
theorem C9_delete_owner_scope (s : Store) (userId categoryName : String) :
    (∀ l ∈ s.limits,
      l ∉ (deleteCategoryLimit s userId categoryName).2.limits →
        l.user = userId) ∧
    ((∀ c ∈ s.categories, c.user = userId) →
      ∀ c, (s.categories.find? fun c2 => c2.nome == categoryName)
          = some c → c.user = userId) ∧
    (deleteCategoryLimit s userId categoryName).2.categories
      = s.categories ∧
    (deleteCategoryLimit s userId categoryName).2.transactions
      = s.transactions := by
  refine ⟨?_, ?_, ?_, ?_⟩
  · intro l hl hnl
    unfold deleteCategoryLimit at hnl
    cases hfind : s.categories.find? fun c2 => c2.nome == categoryName with
    | none =>
        rw [hfind] at hnl
        exact absurd hl hnl
    | some cat =>
        rw [hfind] at hnl
        have hp := removeFirst_mem _ _ _ hl hnl
        have := (Bool.and_eq_true _ _).mp ((Bool.and_eq_true _ _).mp hp).1
        exact eq_of_beq this.1
  · intro hall c hfind
    exact hall c (List.mem_of_find?_eq_some hfind)
  · unfold deleteCategoryLimit
    cases hfind : s.categories.find? fun c2 => c2.nome == categoryName <;>
      rfl
  · unfold deleteCategoryLimit
    cases hfind : s.categories.find? fun c2 => c2.nome == categoryName <;>
      rfl

/-- Witness for C9 (amended): at the concrete single-user store, the
deleted limit indeed belonged to the caller. -/
theorem C9_delete_owner_scope_witness :
    limFood ∈ sOwn.limits ∧
    limFood ∉ (deleteCategoryLimit sOwn "u1" "Food").2.limits ∧
    limFood.user = "u1" := by
  have h := (C9_delete_owner_scope sOwn "u1" "Food").1 limFood
  have hmem : limFood ∈ sOwn.limits := by simp [sOwn]
  have hout : limFood ∉ (deleteCategoryLimit sOwn "u1" "Food").2.limits := by
    simp [deleteCategoryLimit, sOwn, catFood1, limFood, removeFirst]
  exact ⟨hmem, hout, h hmem hout⟩

/-- The image of the found element is in the replaceFirst result. -/
theorem replaceFirst_mem_of_find (p : Limit → Bool) (f : Limit → Limit) :
    ∀ (xs : List Limit) (x : Limit), xs.find? p = some x →
      f x ∈ replaceFirst p f xs := by
  intro xs
  induction xs with
  | nil => intro x h
           cases h
  | cons a rest ih =>
    intro x h
    unfold replaceFirst
    by_cases hp : p a = true
    · rw [List.find?_cons_of_pos _ hp] at h
      cases h
      rw [if_pos hp]
      exact List.mem_cons_self _ _
    · rw [List.find?_cons_of_neg _ hp] at h
      rw [if_neg hp]
      exact List.mem_cons_of_mem _ (ih x h)

/-- C10 (amended): upsertCategoryLimit validates the category reference
only as a nonempty 24-character string and never checks that the
category exists or belongs to the caller: it always answers 201
(created) and creates or reactivates a category-kind limit of the
caller referencing the given id; when no category with that id exists
(and no prior limit holds a name) the display name is the fallback
"Categoria", and when the id belongs to any user's category — also
another user's — the response carries that category's display name. -/
theorem C10_upsert_unchecked_reference (s : Store)
    (userId newId cid : String) (v : ℚ) (now : JSDate)
    (h24 : cid.length = 24) (hne : cid ≠ "") (hv : 0 < v) :
    (∃ e, (upsertCategoryLimit s userId newId (some cid) (some v) now).1
        = UpsertResult.created e) ∧
    (∃ l ∈ (upsertCategoryLimit s userId newId (some cid)
        (some v) now).2.limits,
      l.user = userId ∧ l.tipo = LTipo.categoria ∧
      l.categoria = some cid ∧ l.ativo = true ∧
      l.valorLimite = round2 v) ∧
    ((∀ c ∈ s.categories, c.oid ≠ cid) →
      (∀ l ∈ s.limits, ¬(l.user = userId ∧ l.categoria = some cid ∧
          l.tipo = LTipo.categoria)) →
      ∃ e, (upsertCategoryLimit s userId newId (some cid) (some v) now).1
          = UpsertResult.created e ∧ e.name = "Categoria") ∧
    (∀ c, (s.categories.find? fun c2 => c2.oid == cid) = some c →
      c.nome ≠ "" →
      ∃ e, (upsertCategoryLimit s userId newId (some cid) (some v) now).1
          = UpsertResult.created e ∧ e.name = c.nome) := by
  have hc1 : (decide (cid = "") || decide (v ≤ 0)) = false := by
    simp [hne, hv.not_le]
  have hc2 : ¬ cid.length ≠ 24 := by
    simp [h24]
  unfold upsertCategoryLimit
  simp only [hc1, Bool.false_eq_true, if_false, hc2]
  refine ⟨⟨_, rfl⟩, ?_, ?_, ?_⟩
  · cases hfind : s.limits.find? fun l =>
        l.user == userId && l.categoria == some cid &&
          l.tipo == LTipo.categoria with
    | some l0 =>
        dsimp only
        refine ⟨_, replaceFirst_mem_of_find _ _ _ _ hfind, ?_, rfl, rfl,
          rfl, rfl⟩
        have hp := List.find?_some hfind
        have h1 := (Bool.and_eq_true _ _).mp ((Bool.and_eq_true _ _).mp
          hp).1
        exact eq_of_beq h1.1
    | none =>
        dsimp only
        exact ⟨_, List.mem_append_right _ (List.mem_singleton.mpr rfl),
          rfl, rfl, rfl, rfl, rfl⟩
  · intro hnocat hnolim
    have hfc : (s.categories.find? fun c2 => c2.oid == cid) = none := by
      rw [List.find?_eq_none]
      intro c hc
      simp [hnocat c hc]
    have hfl : (s.limits.find? fun l =>
        l.user == userId && l.categoria == some cid &&
          l.tipo == LTipo.categoria) = none := by
      rw [List.find?_eq_none]
      intro l hl
      have := hnolim l hl
      simp only [Bool.and_eq_true, beq_iff_eq]
      intro hcon
      exact this ⟨hcon.1.1, hcon.1.2, hcon.2⟩
    rw [hfc, hfl]
    exact ⟨_, rfl, rfl⟩
  · intro c hfind hnome
    rw [hfind]
    cases hfl : s.limits.find? fun l =>
        l.user == userId && l.categoria == some cid &&
          l.tipo == LTipo.categoria with
    | some l0 =>
        dsimp only
        rw [if_pos hnome]
        exact ⟨_, rfl, rfl⟩
    | none =>
        dsimp only
        rw [if_pos hnome]
        exact ⟨_, rfl, rfl⟩

/-- Fixtures for C10: a category with a well-formed id owned by another
user, and an empty store for the nonexistent-id case. -/
def catOther : Category :=
  ⟨"cccccccccccccccccccccccc", "u2", "OtherFood", TTipo.despesa, "star"⟩

def sOther : Store := ⟨[catOther], [], []⟩

def sEmpty : Store := ⟨[], [], []⟩

/-- Counterexample for C10: with a well-formed category id owned by
ANOTHER user, the response is still 201 and the limit is created for the
caller, but the display name is the other user's category name
(a cross-user read), not the fallback. -/
theorem C10_counterexample :
    catOther.user ≠ "u1" ∧
    (upsertCategoryLimit sOther "u1" "l9"
        (some "cccccccccccccccccccccccc") (some 100) nowC).1
      = UpsertResult.created (mkEntry "l9" "OtherFood" (some "star")
          100 0 0) ∧
    (mkEntry "l9" "OtherFood" (some "star") 100 0 0).name
      = "OtherFood" ∧
    "OtherFood" ≠ "Categoria" ∧
    (upsertCategoryLimit sOther "u1" "l9"
        (some "cccccccccccccccccccccccc") (some 100) nowC).2.limits.map
        (fun l => (l.user, l.categoria, l.ativo))
      = [("u1", some "cccccccccccccccccccccccc", true)] := by
  refine ⟨by decide, ?_, rfl, by decide, ?_⟩
  · simp [upsertCategoryLimit, spentFor, countFor, txInBudgetWindow,
      monthStart, monthEnd, dateLe, catOther, sOther, nowC,
      daysInMonth, isLeap, round2, jsRound, mkEntry, budgetStatus]
    norm_num
    decide
  · simp [upsertCategoryLimit, catOther, sOther, nowC, round2, jsRound]
    norm_num
    decide

/-- Witness for C10 (amended): with a well-formed id and an empty store —
so the category certainly does not exist — the response is 201 with the
fallback name "Categoria". -/
theorem C10_upsert_unchecked_reference_witness :
    ("cccccccccccccccccccccccc".length = 24) ∧
    ∃ e, (upsertCategoryLimit sEmpty "u1" "l9"
        (some "cccccccccccccccccccccccc") (some 100) nowC).1
      = UpsertResult.created e ∧ e.name = "Categoria" := by
  have h := C10_upsert_unchecked_reference sEmpty "u1" "l9"
    "cccccccccccccccccccccccc" 100 nowC (by decide) (by decide)
    (by norm_num)
  exact ⟨by decide, h.2.2.1 (by simp [sEmpty]) (by simp [sEmpty])⟩

/-- Placeholder defaults for positional list access. -/
def dMonth : CashFlowMonth := ⟨0, 0, 0, 0⟩

def dAcc : CashFlowAccMonth := ⟨0, 0, 0, 0, 0⟩

theorem withAccum_length (acc : ℚ) (l : List CashFlowMonth) :
    (withAccum acc l).length = l.length := by
  induction l generalizing acc with
  | nil => rfl
  | cons x xs ih => simp [withAccum, ih]

/-- Positional description of the running-total pass: fields are copied
and saldoAcumulado at index i is the starting value plus the saldo sum of
the first i+1 rows. -/
theorem withAccum_getD (l : List CashFlowMonth) :
    ∀ (acc : ℚ) (i : ℕ), i < l.length →
      (withAccum acc l).getD i dAcc =
        ⟨(l.getD i dMonth).mes, (l.getD i dMonth).receitas,
          (l.getD i dMonth).despesas, (l.getD i dMonth).saldo,
          acc + (((l.take (i + 1)).map CashFlowMonth.saldo).sum)⟩ := by
  induction l with
  | nil =>
      intro acc i hi
      exact absurd hi (Nat.not_lt_zero i)
  | cons x xs ih =>
    intro acc i hi
    cases i with
    | zero =>
        simp [withAccum, List.getD_cons_zero]
    | succ j =>
        have hj : j < xs.length := by simpa using hi
        simp only [withAccum, List.getD_cons_succ]
        rw [ih (acc + x.saldo) j hj]
        simp [List.take_succ_cons, add_assoc]

theorem withAccum_map_saldo (acc : ℚ) (l : List CashFlowMonth) :
    (withAccum acc l).map CashFlowAccMonth.saldo
      = l.map CashFlowMonth.saldo := by
  induction l generalizing acc with
  | nil => rfl
  | cons x xs ih => simp [withAccum, ih]

theorem txInYear_confirmada {userId : String} {year : ℕ}
    {t : Transaction} (h : txInYear userId year t = true) :
    (t.status == TStatus.confirmada) = true := by
  unfold txInYear at h
  simp only [Bool.and_eq_true] at h
  exact h.1.1.2

/-- The cash-flow aggregation already filters on status confirmada, so
restricting the ledger to confirmed transactions first changes
nothing. -/
theorem getMonthlyCashFlow_filter (userId : String) (year : ℕ)
    (txs : List Transaction) :
    getMonthlyCashFlow userId year
        (txs.filter fun t => t.status == TStatus.confirmada)
      = getMonthlyCashFlow userId year txs := by
  unfold getMonthlyCashFlow monthTotal
  have hA : ∀ m : ℕ,
      ((txs.filter fun t => t.status == TStatus.confirmada).any
        fun t => txInYear userId year t && t.data.month + 1 == m)
      = (txs.any fun t =>
          txInYear userId year t && t.data.month + 1 == m) := by
    intro m
    rw [List.any_filter]
    have hpt : ∀ a : Transaction,
        ((a.status == TStatus.confirmada) &&
          (txInYear userId year a && (a.data.month + 1 == m)))
        = (txInYear userId year a && (a.data.month + 1 == m)) := by
      intro a
      cases hy : txInYear userId year a with
      | false => simp [hy]
      | true => simp [hy, txInYear_confirmada hy]
    simp only [hpt]
  have hF : ∀ (m : ℕ) (tipo : TTipo),
      ((txs.filter fun t => t.status == TStatus.confirmada).filter
        fun t => txInYear userId year t && t.data.month + 1 == m &&
          t.tipo == tipo)
      = (txs.filter fun t => txInYear userId year t &&
          t.data.month + 1 == m && t.tipo == tipo) := by
    intro m tipo
    rw [List.filter_filter]
    apply List.filter_congr
    intro t ht
    cases hy : txInYear userId year t with
    | false => simp [hy]
    | true => simp [hy, txInYear_confirmada hy]
  simp only [hA, hF]

/-- C8: the cash-flow report has exactly 12 rows, months 1..12 in order;
a month with no confirmed transactions of the owner in the year appears
with all-zero income, expense and balance; the i-th cumulative balance
is the sum of the first i balances; and only confirmed transactions
contribute (pre-filtering the ledger to confirmed transactions leaves
the report unchanged). -/
theorem C8_cash_flow_report (userId : String) (year : ℕ)
    (txs : List Transaction) :
    ((generateCashFlowReport userId year txs).fluxoMensal.length = 12) ∧
    (∀ i, i < 12 →
      ((generateCashFlowReport userId year txs).fluxoMensal.getD i
        dAcc).mes = i + 1) ∧
    (∀ i, i < 12 →
      (∀ t ∈ txs,
        ¬(txInYear userId year t = true ∧ t.data.month = i)) →
      ((generateCashFlowReport userId year txs).fluxoMensal.getD i
          dAcc).receitas = 0 ∧
      ((generateCashFlowReport userId year txs).fluxoMensal.getD i
          dAcc).despesas = 0 ∧
      ((generateCashFlowReport userId year txs).fluxoMensal.getD i
          dAcc).saldo = 0) ∧
    (∀ i, i < 12 →
      ((generateCashFlowReport userId year txs).fluxoMensal.getD i
          dAcc).saldoAcumulado
        = ((((generateCashFlowReport userId year txs).fluxoMensal).take
            (i + 1)).map CashFlowAccMonth.saldo).sum) ∧
    (generateCashFlowReport userId year
        (txs.filter fun t => t.status == TStatus.confirmada)
      = generateCashFlowReport userId year txs) := by
  have hbody : (generateCashFlowReport userId year txs).fluxoMensal
      = withAccum 0 ((List.range 12).map fun i =>
          ((getMonthlyCashFlow userId year txs).find? fun f =>
            f.mes == i + 1).getD
            { mes := i + 1, receitas := 0, despesas := 0,
              saldo := 0 }) := rfl
  have hlenF : ((List.range 12).map fun i =>
      ((getMonthlyCashFlow userId year txs).find? fun f =>
        f.mes == i + 1).getD
        { mes := i + 1, receitas := 0, despesas := 0,
          saldo := 0 }).length = 12 := by
    simp
  have hgetF : ∀ i, i < 12 →
      ((List.range 12).map fun i =>
        ((getMonthlyCashFlow userId year txs).find? fun f =>
          f.mes == i + 1).getD
          { mes := i + 1, receitas := 0, despesas := 0,
            saldo := 0 }).getD i dMonth
      = ((getMonthlyCashFlow userId year txs).find? fun f =>
          f.mes == i + 1).getD
          { mes := i + 1, receitas := 0, despesas := 0, saldo := 0 } := by
    intro i hi
    rw [List.getD_eq_getElem _ _ (by simpa [hlenF] using hi)]
    rw [List.getElem_map]
    rw [List.getElem_range]
  refine ⟨?_, ?_, ?_, ?_, ?_⟩
  · rw [hbody, withAccum_length, hlenF]
  · intro i hi
    rw [hbody, withAccum_getD _ _ i (by rw [hlenF]; exact hi)]
    dsimp only
    rw [hgetF i hi]
    cases hfind : (getMonthlyCashFlow userId year txs).find? fun f =>
        f.mes == i + 1 with
    | some e =>
        have := List.find?_some hfind
        simp only [Option.getD_some]
        exact eq_of_beq this
    | none => rfl
  · intro i hi hempty
    have hnone : ((getMonthlyCashFlow userId year txs).find? fun f =>
        f.mes == i + 1) = none := by
      rw [List.find?_eq_none]
      intro e he hbeq
      unfold getMonthlyCashFlow at he
      simp only [List.mem_map] at he
      obtain ⟨mm, hmm, rfl⟩ := he
      have hmmeq : mm = i + 1 := eq_of_beq hbeq
      have hany := (List.mem_filter.mp hmm).2
      rw [List.any_eq_true] at hany
      obtain ⟨t, ht, htp⟩ := hany
      simp only [Bool.and_eq_true, beq_iff_eq] at htp
      exact hempty t ht ⟨htp.1, by omega⟩
    rw [hbody, withAccum_getD _ _ i (by rw [hlenF]; exact hi)]
    dsimp only
    rw [hgetF i hi, hnone]
    exact ⟨rfl, rfl, rfl⟩
  · intro i hi
    rw [hbody, withAccum_getD _ _ i (by rw [hlenF]; exact hi)]
    dsimp only
    rw [zero_add, List.map_take, List.map_take, withAccum_map_saldo]
  · unfold generateCashFlowReport
    rw [getMonthlyCashFlow_filter]

/-- Witness for C8 on an empty ledger for year 2025: 12 rows, row 5 is
month 5 with zero income, and its cumulative balance is the sum of the
first five balances. -/
theorem C8_cash_flow_report_witness :
    (generateCashFlowReport "u1" 2025 []).fluxoMensal.length = 12 ∧
    ((generateCashFlowReport "u1" 2025 []).fluxoMensal.getD 4
      dAcc).mes = 5 ∧
    ((generateCashFlowReport "u1" 2025 []).fluxoMensal.getD 4
      dAcc).receitas = 0 ∧
    ((generateCashFlowReport "u1" 2025 []).fluxoMensal.getD 4
        dAcc).saldoAcumulado
      = ((((generateCashFlowReport "u1" 2025 []).fluxoMensal).take
          5).map CashFlowAccMonth.saldo).sum := by
  have h := C8_cash_flow_report "u1" 2025 []
  exact ⟨h.1, h.2.1 4 (by norm_num),
    (h.2.2.1 4 (by norm_num) (by intro t ht; cases ht)).1,
    h.2.2.2.1 4 (by norm_num)⟩

end NoControle
